import Mathlib

/-!
Verification of `ctrando` effect-type patching, distributions and tech options.

Shallow embedding of:
- `src/ctrando/effects/effecttypes.py`
- `src/ctrando/common/distribution.py`
- `src/ctrando/arguments/techoptions.py`

The symbolic-instruction and assembler layer (`ctrando.asm`) is not part of the
given sources; it is modelled from the specification (sections 3, 4.2, 6):
instructions are mnemonic + addressing mode + operand or label markers, and
each addressing mode has a statically known encoded byte length
(1 opcode byte + 0 to 3 operand bytes).  Python bitwise `x & 0xFFFF` on a
nonnegative integer is written `x % 0x10000` here, and `int.to_bytes(v, n,
"little")` is written as an explicit little-endian byte list.
-/

/-- Modelled from the spec: the closed set of addressing modes used by the
instruction vocabulary, section 6 (immediate-8/16, absolute, absolute-indexed,
long, direct-page, no-operand), plus the absolute-indexed-indirect mode used by
the dispatch `JSR` and the 8-bit relative mode used by short branches. -/
inductive AddressingMode
  | NO_ARG
  | IMM8
  | IMM16
  | DIR
  | ABS
  | ABS_X
  | ABS_X_16
  | LNG
  | LNG_X
  | REL8
deriving DecidableEq, Repr

/-- Modelled from the spec: the mnemonics used by the routines in
`effecttypes.py` (the instruction vocabulary is a closed enumerable set). -/
inductive Mnemonic
  | STA | CMP | BCS | ASL | TAX | JMP | SEC | SBC | JSR
  | LDA | BIT | BEQ | BNE | LDX | STX | JSL | DEC | TSB
  | TDC | REP | SEP | RTS | AND
deriving DecidableEq, Repr

/-- Modelled from the spec: an instruction operand is absent, a numeric value,
or a label reference (used by short branches). -/
inductive Operand
  | noArg
  | val (n : Nat)
  | lbl (s : String)
deriving DecidableEq, Repr

/-- Modelled from the spec, section 3: mnemonic + addressing-mode tag +
optional operand. -/
structure Instruction where
  mnemonic : Mnemonic
  mode : AddressingMode
  operand : Operand
deriving DecidableEq, Repr

/-- Modelled from the spec, section 3: a routine is an ordered list of
instructions or label markers (`assemble.ASMList` mixes instructions and
label strings). -/
inductive AsmToken
  | instr (i : Instruction)
  | label (s : String)
deriving DecidableEq, Repr

namespace inst

def STA (v : Nat) (m : AddressingMode) : AsmToken := .instr ⟨.STA, m, .val v⟩

def CMP (v : Nat) (m : AddressingMode) : AsmToken := .instr ⟨.CMP, m, .val v⟩

def SBC (v : Nat) (m : AddressingMode) : AsmToken := .instr ⟨.SBC, m, .val v⟩

def LDA (v : Nat) (m : AddressingMode) : AsmToken := .instr ⟨.LDA, m, .val v⟩

def LDX (v : Nat) (m : AddressingMode) : AsmToken := .instr ⟨.LDX, m, .val v⟩

def STX (v : Nat) (m : AddressingMode) : AsmToken := .instr ⟨.STX, m, .val v⟩

def BIT (v : Nat) (m : AddressingMode) : AsmToken := .instr ⟨.BIT, m, .val v⟩

def TSB (v : Nat) (m : AddressingMode) : AsmToken := .instr ⟨.TSB, m, .val v⟩

def AND (v : Nat) (m : AddressingMode) : AsmToken := .instr ⟨.AND, m, .val v⟩

def JMP (v : Nat) (m : AddressingMode) : AsmToken := .instr ⟨.JMP, m, .val v⟩

def JSR (v : Nat) (m : AddressingMode) : AsmToken := .instr ⟨.JSR, m, .val v⟩

def JSL (v : Nat) (m : AddressingMode) : AsmToken := .instr ⟨.JSL, m, .val v⟩

def REP (v : Nat) : AsmToken := .instr ⟨.REP, .IMM8, .val v⟩

def SEP (v : Nat) : AsmToken := .instr ⟨.SEP, .IMM8, .val v⟩

def BCS (l : String) : AsmToken := .instr ⟨.BCS, .REL8, .lbl l⟩

def BEQ (l : String) : AsmToken := .instr ⟨.BEQ, .REL8, .lbl l⟩

def BNE (l : String) : AsmToken := .instr ⟨.BNE, .REL8, .lbl l⟩

def ASL (m : AddressingMode) : AsmToken := .instr ⟨.ASL, m, .noArg⟩

def DEC (m : AddressingMode) : AsmToken := .instr ⟨.DEC, m, .noArg⟩

def TAX : AsmToken := .instr ⟨.TAX, .NO_ARG, .noArg⟩

def SEC : AsmToken := .instr ⟨.SEC, .NO_ARG, .noArg⟩

def TDC : AsmToken := .instr ⟨.TDC, .NO_ARG, .noArg⟩

def RTS : AsmToken := .instr ⟨.RTS, .NO_ARG, .noArg⟩

end inst

/-- Two-byte little-endian encoding, `int.to_bytes(x, 2, "little")`. -/
def le16 (x : Nat) : List Nat := [x % 0x100, x / 0x100 % 0x100]

/-- Three-byte little-endian encoding, `int.to_bytes(x, 3, "little")`. -/
def le24 (x : Nat) : List Nat := [x % 0x100, x / 0x100 % 0x100, x / 0x10000 % 0x100]

/-- Modelled from the spec, sections 4.2 and 6: each addressing mode has a
statically known encoded length of 1 opcode byte plus 0 to 3 operand bytes,
and this length never depends on the operand's value. -/
def modeLength : AddressingMode → Nat
  | .NO_ARG => 1
  | .IMM8 => 2
  | .IMM16 => 3
  | .DIR => 2
  | .ABS => 3
  | .ABS_X => 3
  | .ABS_X_16 => 3
  | .LNG => 4
  | .LNG_X => 4
  | .REL8 => 2

/-- Modelled from the spec: opcode byte for each mnemonic/mode pair used by
this module, taken from the fixed target architecture (the byte values are
documented in the disassembly comments inside `effecttypes.py`, e.g.
`85 20 STA $20`, `FC 61 FA JSR ($FA61,X)`, `BF .. LDA long,X`).
Pairs never produced by this module fall to a default of 0. -/
def opcode : Mnemonic → AddressingMode → Nat
  | .STA, .DIR => 0x85
  | .STA, .ABS => 0x8D
  | .CMP, .IMM8 => 0xC9
  | .BCS, _ => 0xB0
  | .BEQ, _ => 0xF0
  | .BNE, _ => 0xD0
  | .ASL, _ => 0x0A
  | .TAX, _ => 0xAA
  | .JMP, _ => 0x5C
  | .SEC, _ => 0x38
  | .SBC, .IMM8 => 0xE9
  | .JSR, _ => 0xFC
  | .LDA, .IMM8 => 0xA9
  | .LDA, .DIR => 0xA5
  | .LDA, .ABS => 0xAD
  | .LDA, .ABS_X => 0xBD
  | .LDA, .LNG_X => 0xBF
  | .BIT, _ => 0x89
  | .LDX, .IMM16 => 0xA2
  | .LDX, .DIR => 0xA6
  | .LDX, .ABS => 0xAE
  | .STX, .DIR => 0x86
  | .STX, .ABS => 0x8E
  | .JSL, _ => 0x22
  | .DEC, _ => 0x3A
  | .TSB, .ABS => 0x0C
  | .TDC, _ => 0x7B
  | .REP, _ => 0xC2
  | .SEP, _ => 0xE2
  | .RTS, _ => 0x60
  | .AND, .IMM8 => 0x29
  | _, _ => 0

def opVal : Operand → Nat
  | .val v => v
  | _ => 0

def opLbl : Operand → String
  | .lbl s => s
  | _ => ""

/-- Modelled from the spec, section 4.2, pass 1: walk the instruction list
accumulating byte offsets from the statically known lengths, recording each
label's offset the first time it is reached (lookup returns the first
occurrence). -/
def label_offsets : List AsmToken → Nat → List (String × Nat)
  | [], _ => []
  | .instr i :: rest, off => label_offsets rest (off + modeLength i.mode)
  | .label s :: rest, off => (s, off) :: label_offsets rest off

/-- Modelled from the spec, section 4.2, pass 2 operand emission: absolute,
direct, immediate and long operands are emitted verbatim per their addressing
mode; a short branch is emitted as the signed 8-bit offset
`target_offset - (branch_offset + branch_length)`. -/
def operand_bytes (env : List (String × Nat)) (off : Nat) (i : Instruction) : List Nat :=
  match i.mode with
  | .NO_ARG => []
  | .IMM8 => [opVal i.operand % 0x100]
  | .DIR => [opVal i.operand % 0x100]
  | .IMM16 => le16 (opVal i.operand)
  | .ABS => le16 (opVal i.operand)
  | .ABS_X => le16 (opVal i.operand)
  | .ABS_X_16 => le16 (opVal i.operand)
  | .LNG => le24 (opVal i.operand)
  | .LNG_X => le24 (opVal i.operand)
  | .REL8 =>
      [(((((env.lookup (opLbl i.operand)).getD 0 : Nat) : Int) - ((off : Int) + 2)).emod 256).toNat]

/-- Modelled from the spec, section 4.2, pass 2: re-walk the list emitting one
opcode byte and the operand bytes for each instruction; labels emit nothing. -/
def emit_tokens (env : List (String × Nat)) : List AsmToken → Nat → List Nat
  | [], _ => []
  | .label _ :: rest, off => emit_tokens env rest off
  | .instr i :: rest, off =>
      (opcode i.mnemonic i.mode :: operand_bytes env off i)
        ++ emit_tokens env rest (off + modeLength i.mode)

/-- Modelled from the spec, section 4.2: `assemble(routine)`, the two-pass,
deterministic-length algorithm. -/
def assemble (l : List AsmToken) : List Nat :=
  emit_tokens (label_offsets l 0) l 0

/-- Static byte length of a token: labels occupy no bytes, instructions occupy
their addressing mode's statically known length. -/
def tokenLength : AsmToken → Nat
  | .label _ => 0
  | .instr i => modeLength i.mode

/-- Static byte length of a routine: sum of the per-token static lengths. -/
def assemble_length (l : List AsmToken) : Nat := (l.map tokenLength).sum

theorem modeLength_pos (m : AddressingMode) : 1 ≤ modeLength m := by
  cases m <;> simp [modeLength]

theorem operand_bytes_length (env : List (String × Nat)) (off : Nat) (i : Instruction) :
    (operand_bytes env off i).length = modeLength i.mode - 1 := by
  cases h : i.mode <;> simp [operand_bytes, h, modeLength, le16, le24]

theorem emit_tokens_length (env : List (String × Nat)) :
    ∀ (l : List AsmToken) (off : Nat), (emit_tokens env l off).length = assemble_length l := by
  intro l
  induction l with
  | nil => intro off; rfl
  | cons t rest ih =>
      intro off
      cases t with
      | label s => simpa [emit_tokens, assemble_length, tokenLength] using ih off
      | instr i =>
          have h1 := operand_bytes_length env off i
          have h2 := modeLength_pos i.mode
          simp [emit_tokens, assemble_length, tokenLength, h1, ih]
          omega

theorem assemble_length_eq (l : List AsmToken) :
    (assemble l).length = assemble_length l :=
  emit_tokens_length _ l 0

/-! ## Constants from `effecttypes.py` -/

def _vanilla_effect_start : Nat := 0x0C2A05

def _vanilla_effect_count : Nat := 0x39

def _max_vanilla_routine_index : Nat := 0x42

def _current_damage_offset : Nat := 0xAD89

def _current_attack_status_offset : Nat := 0xAE9B

def _current_attacker_offset : Nat := 0xB1F4

def _crown_offset : Nat := 0x5E51

def _crown_bit : Nat := 0x80

/-- Modelled from the spec: `byteops.to_rom_ptr` translates a file offset into
the target's absolute address space (the disassembly comments show file
`0x01EB3D` at `C1EB3D` and file `0x3DB5B2` inside `FDB5B2`: low offsets gain
`0xC00000`, offsets at and beyond `0x400000` are already absolute). -/
def to_rom_ptr (file_addr : Nat) : Nat :=
  if file_addr < 0x400000 then file_addr + 0xC00000 else file_addr

/-- Modelled from the spec: inverse direction of `to_rom_ptr` for addresses in
the mirrored area. -/
def to_file_ptr (rom_addr : Nat) : Nat :=
  if 0xC00000 ≤ rom_addr then rom_addr - 0xC00000 else rom_addr

/-- `make_bank_switch_rt` from `expand_effect_mods` (effecttypes.py lines
320-338): the two-tier dispatch routine.  Python `ptr_table_rom_st & 0xFFFF`
is `ptr_table_rom_st % 0x10000`. -/
def make_bank_switch_rt (ptr_table_rom_st : Nat) : List AsmToken :=
  [ inst.STA 0x20 .DIR,
    inst.CMP (_max_vanilla_routine_index + 1) .IMM8,
    inst.BCS "new_bank",
    inst.ASL .NO_ARG,
    inst.TAX,
    inst.JMP 0xC1EB45 .LNG,
    AsmToken.label "new_bank",
    inst.SEC,
    inst.SBC (_max_vanilla_routine_index + 1) .IMM8,
    inst.ASL .NO_ARG,
    inst.TAX,
    inst.JSR (ptr_table_rom_st % 0x10000) .ABS_X_16,
    inst.JMP 0xC1EB48 .LNG ]

/-- Claim C1: for every pointer-table address `p`, `make_bank_switch_rt p` is
exactly the instruction sequence STA $20 (direct); CMP #$43 (immediate-8);
BCS "new_bank"; ASL; TAX; JMP long $C1EB45; label "new_bank"; SEC; SBC #$43
(immediate-8); ASL; TAX; JSR (p mod 2^16),X (absolute-indexed-indirect);
JMP long $C1EB48 — and the compared threshold and the subtracted constant are
both `_max_vanilla_routine_index + 1 = 0x43`. -/
theorem make_bank_switch_rt_spec (p : Nat) :
    make_bank_switch_rt p =
      [ inst.STA 0x20 .DIR,
        inst.CMP 0x43 .IMM8,
        inst.BCS "new_bank",
        inst.ASL .NO_ARG,
        inst.TAX,
        inst.JMP 0xC1EB45 .LNG,
        AsmToken.label "new_bank",
        inst.SEC,
        inst.SBC 0x43 .IMM8,
        inst.ASL .NO_ARG,
        inst.TAX,
        inst.JSR (p % 0x10000) .ABS_X_16,
        inst.JMP 0xC1EB48 .LNG ]
    ∧ _max_vanilla_routine_index + 1 = 0x43 :=
  ⟨rfl, rfl⟩

/-- `get_on_crit_rt` (effecttypes.py lines 459-475): the routine list built in
the function body. -/
def get_on_crit_rt_body : List AsmToken :=
  [ inst.LDA _current_attack_status_offset .ABS,
    inst.AND 0x80 .IMM8,
    inst.BEQ "end",
    AsmToken.label "end",
    inst.RTS ]

/-- `get_on_crit_rt` returns the value of the Python function: its body has no
return statement, so the call evaluates to `None`. -/
def get_on_crit_rt : Option (List AsmToken) := none

/-- Claim C8: `get_on_crit_rt` constructs an instruction list whose final
instruction is RTS, but the function itself returns `None` (no return
statement); the routine is never wired to a return path or caller. -/
theorem get_on_crit_rt_unwired :
    get_on_crit_rt_body.getLast? = some inst.RTS ∧ get_on_crit_rt = none :=
  ⟨rfl, rfl⟩

/-! ## Effect routines -/

def slow_mult_rom_addr : Nat := 0xC1FDBF

def slow_div_rom_addr : Nat := 0xC1FDD3

/-- `get_venus_bow_rt` (effecttypes.py lines 383-390). -/
def get_venus_bow_rt : List AsmToken :=
  [ inst.LDX 777 .IMM16,
    inst.STX _current_damage_offset .ABS,
    inst.RTS ]

/-- `get_spellslinger_rt` (effecttypes.py lines 421-454). -/
def get_spellslinger_rt : List AsmToken :=
  [ inst.TDC,
    inst.LDX _current_attacker_offset .ABS,
    inst.REP 0x20,
    inst.LDA 0x5E36 .ABS_X,
    inst.STA 0x28 .DIR,
    inst.TDC,
    inst.SEP 0x20,
    inst.LDX 0x000A .IMM16,
    inst.STX 0x2A .DIR,
    inst.JSL slow_div_rom_addr .LNG,
    inst.LDX 0x32 .DIR,
    inst.STX 0x28 .DIR,
    inst.LDX _current_damage_offset .ABS,
    inst.STX 0x2A .DIR,
    inst.JSL slow_mult_rom_addr .LNG,
    inst.LDX 0x2C .DIR,
    inst.STX 0x28 .DIR,
    inst.LDA 0x1E .DIR,
    inst.TAX,
    inst.STX 0x2A .DIR,
    inst.JSL slow_div_rom_addr .LNG,
    inst.LDX 0x2C .DIR,
    inst.STX _current_damage_offset .ABS,
    inst.RTS ]

def sunshades_hook_rom_addr : Nat := 0xC1E5D8

def sunshades_return_rom_addr : Nat := 0xC1E5DE

/-- The routine built by `add_independent_sunshades_effect` (effecttypes.py
lines 96-124) and passed to `asmpatcher.apply_jmp_patch`. -/
def sunshades_rt : List AsmToken :=
  [ inst.LDA _crown_offset .ABS_X,
    inst.BIT _crown_bit .IMM8,
    inst.BEQ "end",
    inst.LDX 0x2C .DIR,
    inst.STX 0x28 .DIR,
    inst.LDX 0x0004 .IMM16,
    inst.STX 0x2A .DIR,
    inst.JSL slow_div_rom_addr .LNG,
    inst.LDX 0x2C .DIR,
    inst.STX 0x28 .DIR,
    inst.LDX 0x0005 .IMM16,
    inst.STX 0x2A .DIR,
    inst.JSL slow_mult_rom_addr .LNG,
    AsmToken.label "end",
    inst.LDX 0xB1F4 .ABS,
    inst.LDA 0x5E4B .ABS_X,
    inst.JMP sunshades_return_rom_addr .LNG ]

/-- `make_effect_rt` from `patch_additional_armor_effects` (effecttypes.py
lines 166-212); `effect_mod_start_rom` is the enclosing function's closure
variable. -/
def make_effect_rt (effect_mod_start_rom battle_index hook_rom_addr : Nat) : List AsmToken :=
  let pc_stat_base := 0x5E2D + 0x80 * battle_index
  let local_crown_offset := _crown_offset - 0x5E2D
  let local_status_offset := 0x5E50 - 0x5E2D
  let local_haste_offset := local_status_offset + 2
  let element_offset := 0x3F
  let early_return_rom_addr := hook_rom_addr + 4
  let late_return_rom_addr := hook_rom_addr + 15
  [ inst.LDA effect_mod_start_rom .LNG_X,
    inst.CMP 0x00 .IMM8,
    inst.BEQ "new_rt",
    inst.JMP early_return_rom_addr .LNG,
    AsmToken.label "new_rt",
    inst.LDA (effect_mod_start_rom + 1) .LNG_X,
    inst.CMP 0x00 .IMM8,
    inst.BNE "crown",
    inst.LDA 0x00 .IMM8,
    inst.STA (pc_stat_base + element_offset) .ABS,
    inst.STA (pc_stat_base + element_offset + 1) .ABS,
    inst.STA (pc_stat_base + element_offset + 2) .ABS,
    inst.STA (pc_stat_base + element_offset + 3) .ABS,
    inst.JMP late_return_rom_addr .LNG,
    AsmToken.label "crown",
    inst.DEC .NO_ARG,
    inst.BNE "tiara",
    inst.LDA 0x80 .IMM8,
    inst.TSB (pc_stat_base + local_crown_offset) .ABS,
    inst.LDA 0xFF .IMM8,
    inst.TSB (pc_stat_base + local_status_offset) .ABS,
    inst.JMP late_return_rom_addr .LNG,
    AsmToken.label "tiara",
    inst.DEC .NO_ARG,
    inst.BNE "end",
    inst.LDA 0x80 .IMM8,
    inst.TSB (pc_stat_base + local_haste_offset) .ABS,
    inst.LDA 0xFF .IMM8,
    inst.TSB (pc_stat_base + local_status_offset) .ABS,
    AsmToken.label "end",
    inst.JMP late_return_rom_addr .LNG ]

/-- Claim C6: every routine this module passes to
`asmpatcher.apply_jmp_patch` ends with an unconditional long jump to an
explicitly supplied return address: `sunshades_rt` ends with the two displaced
instructions `LDX $B1F4` (absolute) and `LDA $5E4B,X` (absolute-indexed)
followed by `JMP` long to `0xC1E5DE = hook 0xC1E5D8 + 6`; and every routine
returned by `make_effect_rt` ends with `JMP` long to `hook_rom_addr + 15`. -/
theorem patch_routines_end_in_long_jmp :
    sunshades_rt.drop (sunshades_rt.length - 3) =
      [ inst.LDX 0xB1F4 .ABS,
        inst.LDA 0x5E4B .ABS_X,
        inst.JMP sunshades_return_rom_addr .LNG ]
    ∧ sunshades_return_rom_addr = sunshades_hook_rom_addr + 6
    ∧ ∀ e b h : Nat,
        (make_effect_rt e b h).getLast? = some (inst.JMP (h + 15) .LNG) :=
  ⟨rfl, rfl, fun _ _ _ => rfl⟩

/-! ## The relocated effect-mod table -/

/-- `get_spellslinger_effect` (effecttypes.py lines 27-30): returns the 3-byte
record, or fails (Python `ValueError`) when the divisor is out of range. -/
def get_spellslinger_effect (effect_id damage_divisor : Nat) : Option (List Nat) :=
  if 1 ≤ damage_divisor ∧ damage_divisor < 0xFF then
    some [effect_id, 0, damage_divisor]
  else
    none

/-- The additional `EffectMod` records built by `gather_new_effects_and_rts`
(effecttypes.py lines 42-58), in order: two weapon-effect records followed by
four armor records. -/
def gather_new_effects : Option (List (List Nat)) :=
  (get_spellslinger_effect (_max_vanilla_routine_index + 2) 2).map (fun ss =>
    [ [_max_vanilla_routine_index + 1, 0, 0],
      ss,
      [0x26, 0x44, 0],
      [0, 0, 0],
      [0, 1, 0],
      [0, 2, 0] ])

/-- The routine lists returned by `gather_new_effects_and_rts`. -/
def additional_effect_routines : List (List AsmToken) :=
  [get_venus_bow_rt, get_spellslinger_rt]

/-- The effect-table payload written at `new_eff_start` by
`expand_effect_mods` (effecttypes.py lines 250-263): the vanilla records read
from the image followed by the additional records, joined byte-wise. -/
def effect_table_payload (vanilla_effects : List (List Nat)) : Option (List Nat) :=
  gather_new_effects.map (fun adds => (vanilla_effects ++ adds).flatten)

set_option maxRecDepth 8000

/-- The additional records evaluate to concrete bytes; the spellslinger
record passes the divisor check and is `[0x44, 0, 2]`. -/
theorem effect_table_payload_eq (vanilla : List (List Nat)) :
    effect_table_payload vanilla =
      some ((vanilla ++ [ [0x43, 0, 0], [0x44, 0, 2], [0x26, 0x44, 0],
        [0, 0, 0], [0, 1, 0], [0, 2, 0] ]).flatten) := rfl

/-- A list of 0x39 records of 3 bytes each flattens to 0xAB bytes. -/
theorem vanilla_flatten_length (vanilla : List (List Nat))
    (h1 : vanilla.length = 0x39) (h2 : ∀ r ∈ vanilla, r.length = 3) :
    vanilla.flatten.length = 0xAB := by
  have hmap : vanilla.map List.length = List.replicate 0x39 3 := by
    rw [List.eq_replicate_iff]
    refine ⟨by simp [h1], ?_⟩
    intro b hb
    obtain ⟨r, hr, hrb⟩ := List.mem_map.1 hb
    exact hrb ▸ h2 r hr
  rw [List.length_flatten, hmap, List.sum_replicate]
  rfl

/-- Claim C2: `expand_effect_mods` writes at `new_eff_start` the concatenation
of the 0x39 vanilla 3-byte records in index order followed by the additional
records from `gather_new_effects_and_rts`; hence record 0 of the relocated
table equals vanilla record 0 byte-for-byte, and record 0x3A equals the new
spellslinger record `[0x44, 0x00, 0x02]`. -/
theorem effect_table_payload_records (vanilla : List (List Nat))
    (h1 : vanilla.length = 0x39) (h2 : ∀ r ∈ vanilla, r.length = 3) :
    ∃ payload, effect_table_payload vanilla = some payload ∧
      payload = vanilla.flatten ++
        [0x43, 0, 0, 0x44, 0, 2, 0x26, 0x44, 0, 0, 0, 0, 0, 1, 0, 0, 2, 0] ∧
      payload.take 3 = vanilla.headI ∧
      (payload.drop (3 * 0x3A)).take 3 = [0x44, 0x00, 0x02] := by
  have hflat : (vanilla ++ ([ [0x43, 0, 0], [0x44, 0, 2], [0x26, 0x44, 0],
        [0, 0, 0], [0, 1, 0], [0, 2, 0] ] : List (List Nat))).flatten =
      vanilla.flatten ++
        [0x43, 0, 0, 0x44, 0, 2, 0x26, 0x44, 0, 0, 0, 0, 0, 1, 0, 0, 2, 0] := by
    rw [List.flatten_append]
    rfl
  refine ⟨_, effect_table_payload_eq vanilla, hflat, ?_, ?_⟩
  · rw [hflat]
    cases vanilla with
    | nil => exact absurd h1 (by decide)
    | cons r0 rest =>
        have hr0 : r0.length = 3 := h2 r0 (List.mem_cons_self _ _)
        rw [List.flatten_cons, List.append_assoc,
          List.take_append_eq_append_take, hr0,
          List.take_of_length_le (le_of_eq hr0)]
        simp
  · rw [hflat, List.drop_append_eq_append_drop,
      List.drop_eq_nil_of_le (by rw [vanilla_flatten_length vanilla h1 h2]; norm_num),
      vanilla_flatten_length vanilla h1 h2]
    rfl

/-- Witness for claim C2 at a concrete vanilla table. -/
theorem effect_table_payload_records_witness :
    ∃ payload, effect_table_payload (List.replicate 0x39 [7, 8, 9]) = some payload ∧
      payload = (List.replicate 0x39 [7, 8, 9] : List (List Nat)).flatten ++
        [0x43, 0, 0, 0x44, 0, 2, 0x26, 0x44, 0, 0, 0, 0, 0, 1, 0, 0, 2, 0] ∧
      payload.take 3 = (List.replicate 0x39 [7, 8, 9] : List (List Nat)).headI ∧
      (payload.drop (3 * 0x3A)).take 3 = [0x44, 0x00, 0x02] :=
  effect_table_payload_records _ (by decide) (by decide)

/-- Counterexample to claim C7 as stated: at a concrete vanilla table of 0x39
3-byte records, the payload written by `expand_effect_mods` is not
`(0x39 + 2) * 3` bytes long (the module appends six additional records, not
two). -/
theorem effect_table_payload_not_two_extra :
    ∃ payload,
      effect_table_payload (List.replicate 0x39 [0, 0, 0]) = some payload ∧
      payload.length ≠ (0x39 + 2) * 3 := by
  refine ⟨_, effect_table_payload_eq _, ?_⟩
  rw [List.flatten_append, List.length_append,
    vanilla_flatten_length _ (by decide) (by decide)]
  decide

/-- Claim C7 (amended): the relocated effect table extends the 0x39-entry
original table by exactly six entries (two weapon-effect records and four
armor records): the payload written at `new_eff_start` is `(0x39 + 6) * 3`
bytes long, i.e. holds 0x3F records. -/
theorem effect_table_payload_length (vanilla : List (List Nat))
    (h1 : vanilla.length = 0x39) (h2 : ∀ r ∈ vanilla, r.length = 3) :
    ∃ payload, effect_table_payload vanilla = some payload ∧
      payload.length = (0x39 + 6) * 3 := by
  refine ⟨_, effect_table_payload_eq vanilla, ?_⟩
  rw [List.flatten_append, List.length_append,
    vanilla_flatten_length vanilla h1 h2]
  rfl

/-- Witness for the amended claim C7 at a concrete vanilla table. -/
theorem effect_table_payload_length_witness :
    ∃ payload,
      effect_table_payload (List.replicate 0x39 [7, 8, 9]) = some payload ∧
      payload.length = (0x39 + 6) * 3 :=
  effect_table_payload_length _ (by decide) (by decide)

/-! ## Routine payload layout in `expand_effect_mods` (lines 313-374) -/

/-- `effect_rts` (line 313): the assembled bytes of the new effect routines. -/
def effect_rts : List (List Nat) := additional_effect_routines.map assemble

/-- `effect_rt_lens` (line 318). -/
def effect_rt_lens : List Nat := effect_rts.map List.length

/-- `bank_switch_rt_size` (line 341): assembled size of the dispatch routine
at a dummy pointer-table address. -/
def bank_switch_rt_size : Nat := (assemble (make_bank_switch_rt 0)).length

/-- `total_size` (line 342). -/
def total_size : Nat := effect_rt_lens.sum + 2 * effect_rts.length + bank_switch_rt_size

/-- `first_ptr` (line 351); Python `& 0xFFFF` is `% 0x10000`. -/
def first_ptr (payload_addr : Nat) : Nat :=
  (payload_addr + additional_effect_routines.length * 2) % 0x10000

/-- The loop of line 354: each pointer is the previous one plus the previous
routine's length. -/
def ptrs_go (cur : Nat) : List Nat → List Nat
  | [] => []
  | len :: rest => (cur + len) :: ptrs_go (cur + len) rest

/-- `ptrs` (lines 353-355): `[first_ptr]` extended once per entry of
`effect_rt_lens[:-1]`. -/
def ptrs (payload_addr : Nat) : List Nat :=
  first_ptr payload_addr :: ptrs_go (first_ptr payload_addr) effect_rt_lens.dropLast

/-- `ptr_b` (line 357): the little-endian secondary pointer table. -/
def ptr_b (payload_addr : Nat) : List Nat := ((ptrs payload_addr).map le16).flatten

/-- `rt_b` (line 352): concatenated assembled routines. -/
def rt_b : List Nat := effect_rts.flatten

/-- `payload` (line 362): pointer table, then routines, then the bank-switch
routine assembled at the real payload address. -/
def routine_payload (payload_addr : Nat) : List Nat :=
  ptr_b payload_addr ++ rt_b ++ assemble (make_bank_switch_rt (to_rom_ptr payload_addr))

/-- `bank_switch_addr` (line 368). -/
def bank_switch_addr (payload_addr : Nat) : Nat :=
  payload_addr + rt_b.length + (ptr_b payload_addr).length

/-- The two new routines assemble to 7 and 55 bytes. -/
theorem effect_rt_lens_eq : effect_rt_lens = [7, 55] := rfl

/-- The dispatch routine assembles to 24 bytes regardless of the pointer-table
address operand. -/
theorem bank_switch_len (p : Nat) :
    (assemble (make_bank_switch_rt p)).length = 24 := by
  rw [assemble_length_eq]
  rfl

/-- Claim C4: no instruction's encoded length depends on its operand's value:
every token's emitted bytes have its statically known length, so
`assemble (make_bank_switch_rt p)` has the same byte length as
`assemble (make_bank_switch_rt 0)` for every pointer-table address `p`, and
the payload built by `expand_effect_mods` always has length `total_size`, so
the `ValueError` raised by the payload-length check is unreachable. -/
theorem assemble_size_deterministic :
    (∀ (env : List (String × Nat)) (off : Nat) (i : Instruction),
      ((opcode i.mnemonic i.mode :: operand_bytes env off i) : List Nat).length =
        modeLength i.mode)
    ∧ (∀ p : Nat, (assemble (make_bank_switch_rt p)).length =
        (assemble (make_bank_switch_rt 0)).length)
    ∧ (∀ payload_addr : Nat, (routine_payload payload_addr).length = total_size) := by
  refine ⟨?_, ?_, ?_⟩
  · intro env off i
    have h1 := operand_bytes_length env off i
    have h2 := modeLength_pos i.mode
    simp only [List.length_cons, h1]
    omega
  · intro p
    rw [bank_switch_len, bank_switch_len]
  · intro payload_addr
    simp only [routine_payload, List.length_append, bank_switch_len]
    rfl

/-- If a partial sum stays below the modulus, the modulus distributes over the
addition: `a % m + b = (a + b) % m`. -/
theorem add_mod_eq_of_lt (a b m : Nat) (h : a % m + b < m) :
    a % m + b = (a + b) % m := by
  conv_rhs => rw [← Nat.div_add_mod a m]
  rw [Nat.add_assoc, Nat.mul_add_mod]
  exact (Nat.mod_eq_of_lt h).symm

/-- Claim C3: with `R = 2` new effect routines, the secondary pointer table
occupies the first `2 * R` bytes of the routine payload; its `i`-th entry is
the 2-byte little-endian value `(payload_addr + 2 * R + sum of the assembled
lengths of routines 0..i-1) mod 0x10000`, the 16-bit in-bank offset of
assembled routine `i`; the routines lie immediately after the pointer table
(routine `i` occupies the `effect_rt_lens[i]` payload bytes starting at offset
`2 * R + sum of lengths 0..i-1`), followed by the bank-switch routine. -/
theorem ptr_table_layout (payload_addr : Nat)
    (hfit : payload_addr % 0x10000 + 2 * 2 + effect_rt_lens.sum ≤ 0x10000) :
    (ptr_b payload_addr).length = 2 * 2
    ∧ (routine_payload payload_addr).take (2 * 2) = ptr_b payload_addr
    ∧ (∀ i < 2, ((ptr_b payload_addr).drop (2 * i)).take 2 =
        le16 ((payload_addr + 2 * 2 + (effect_rt_lens.take i).sum) % 0x10000))
    ∧ (∀ i < 2, ((routine_payload payload_addr).drop
          (2 * 2 + (effect_rt_lens.take i).sum)).take (effect_rt_lens.getD i 0) =
        effect_rts.getD i [])
    ∧ (routine_payload payload_addr).drop (2 * 2 + effect_rt_lens.sum) =
        assemble (make_bank_switch_rt (to_rom_ptr payload_addr)) := by
  have hsum : effect_rt_lens.sum = 62 := rfl
  have hmod4 : payload_addr % 0x10000 + 4 < 0x10000 := by
    rw [hsum] at hfit; omega
  have hp0 : first_ptr payload_addr = (payload_addr + 2 * 2 + 0) % 0x10000 := by
    simp [first_ptr, additional_effect_routines]
  have hp1 : first_ptr payload_addr + 7 = (payload_addr + 2 * 2 + 7) % 0x10000 := by
    have : (payload_addr + 4) % 0x10000 + 7 = (payload_addr + 4 + 7) % 0x10000 := by
      refine add_mod_eq_of_lt _ _ _ ?_
      have : (payload_addr + 4) % 0x10000 = payload_addr % 0x10000 + 4 :=
        (add_mod_eq_of_lt _ _ _ hmod4).symm
      rw [hsum] at hfit
      omega
    simpa [first_ptr, additional_effect_routines, Nat.add_assoc] using this
  refine ⟨rfl, ?_, ?_, ?_, ?_⟩
  · rfl
  · intro i hi
    interval_cases i
    · simpa [ptr_b, ptrs, effect_rt_lens_eq, ptrs_go, le16] using congrArg le16 hp0
    · simpa [ptr_b, ptrs, effect_rt_lens_eq, ptrs_go, le16] using congrArg le16 hp1
  · intro i hi
    interval_cases i <;> rfl
  · rfl

/-- Witness for claim C3 at a concrete payload address on a fresh bank. -/
theorem ptr_table_layout_witness :
    (ptr_b 0x410000).length = 2 * 2
    ∧ (routine_payload 0x410000).take (2 * 2) = ptr_b 0x410000
    ∧ (∀ i < 2, ((ptr_b 0x410000).drop (2 * i)).take 2 =
        le16 ((0x410000 + 2 * 2 + (effect_rt_lens.take i).sum) % 0x10000))
    ∧ (∀ i < 2, ((routine_payload 0x410000).drop
          (2 * 2 + (effect_rt_lens.take i).sum)).take (effect_rt_lens.getD i 0) =
        effect_rts.getD i [])
    ∧ (routine_payload 0x410000).drop (2 * 2 + effect_rt_lens.sum) =
        assemble (make_bank_switch_rt (to_rom_ptr 0x410000)) :=
  ptr_table_layout 0x410000 (by decide)

/-! ## Pointer-reference rewriting (lines 265-299) -/

/-- `addr_offset_dict` (lines 265-294) as an association list in the source's
insertion order. -/
def addr_offset_dict : List (Nat × Nat) :=
  [ (0x01EB2E, 1), (0x01EB36, 2), (0x01EB3E, 0),
    (0x3DB5B2, 1), (0x3DB5D1, 1), (0x3DB5F0, 1),
    (0x3DB610, 1), (0x3DB62F, 1), (0x3DB64E, 1) ]

/-- The write performed by the loop of lines 296-299 for each dictionary
entry: at `addr`, the 3-byte little-endian encoding of `rom_addr + offset`
where `rom_addr = to_rom_ptr new_eff_start`. -/
def effect_ptr_writes (new_eff_start : Nat) : List (Nat × List Nat) :=
  addr_offset_dict.map (fun p => (p.1, le24 (to_rom_ptr new_eff_start + p.2)))

/-- A byte-addressed image: `seek(a)` then `write(bs)` stores the bytes
consecutively from `a`. -/
def writeBytes (f : Nat → Nat) : Nat → List Nat → (Nat → Nat)
  | _, [] => f
  | a, b :: rest => writeBytes (Function.update f a b) (a + 1) rest

/-- Read `n` consecutive bytes starting at `a`. -/
def readBytes (f : Nat → Nat) : Nat → Nat → List Nat
  | _, 0 => []
  | a, n + 1 => f a :: readBytes f (a + 1) n

/-- Apply a list of writes in order (the Python loop's seek/write pairs). -/
def applyWrites (ws : List (Nat × List Nat)) (f : Nat → Nat) : Nat → Nat :=
  ws.foldl (fun g w => writeBytes g w.1 w.2) f

/-- Two writes touch disjoint address ranges. -/
def disjointWrites (u v : Nat × List Nat) : Prop :=
  u.1 + u.2.length ≤ v.1 ∨ v.1 + v.2.length ≤ u.1

instance (u v : Nat × List Nat) : Decidable (disjointWrites u v) := by
  unfold disjointWrites
  infer_instance

theorem writeBytes_outside : ∀ (bs : List Nat) (f : Nat → Nat) (a x : Nat),
    (x < a ∨ a + bs.length ≤ x) → writeBytes f a bs x = f x := by
  intro bs
  induction bs with
  | nil => intro f a x _; rfl
  | cons b rest ih =>
      intro f a x hx
      have hxa : x ≠ a := by
        rcases hx with h | h
        · omega
        · simp only [List.length_cons] at h; omega
      have hx2 : x < a + 1 ∨ a + 1 + rest.length ≤ x := by
        rcases hx with h | h
        · left; omega
        · right; simp only [List.length_cons] at h; omega
      rw [writeBytes, ih _ _ _ hx2, Function.update_noteq hxa]

theorem readBytes_writeBytes_self : ∀ (bs : List Nat) (f : Nat → Nat) (a : Nat),
    readBytes (writeBytes f a bs) a bs.length = bs := by
  intro bs
  induction bs with
  | nil => intro f a; rfl
  | cons b rest ih =>
      intro f a
      rw [List.length_cons, readBytes, writeBytes]
      refine congrArg₂ _ ?_ (ih _ _)
      rw [writeBytes_outside _ _ _ _ (Or.inl (by omega))]
      exact Function.update_same a b f

theorem readBytes_congr : ∀ (n : Nat) (f g : Nat → Nat) (a : Nat),
    (∀ x, a ≤ x → x < a + n → f x = g x) → readBytes f a n = readBytes g a n := by
  intro n
  induction n with
  | zero => intro f g a _; rfl
  | succ m ih =>
      intro f g a h
      rw [readBytes, readBytes, h a (le_refl a) (by omega),
        ih f g (a + 1) (fun x hx1 hx2 => h x (by omega) (by omega))]

theorem applyWrites_outside : ∀ (ws : List (Nat × List Nat)) (f : Nat → Nat) (x : Nat),
    (∀ w ∈ ws, x < w.1 ∨ w.1 + w.2.length ≤ x) → applyWrites ws f x = f x := by
  intro ws
  induction ws with
  | nil => intro f x _; rfl
  | cons w rest ih =>
      intro f x h
      rw [applyWrites, List.foldl_cons]
      rw [show List.foldl (fun g w => writeBytes g w.1 w.2) (writeBytes f w.1 w.2) rest =
        applyWrites rest (writeBytes f w.1 w.2) from rfl]
      rw [ih _ _ (fun v hv => h v (List.mem_cons_of_mem _ hv))]
      exact writeBytes_outside _ _ _ _ (h w (List.mem_cons_self _ _))

theorem readBytes_applyWrites :
    ∀ (ws : List (Nat × List Nat)) (f : Nat → Nat) (a : Nat) (bs : List Nat),
    (a, bs) ∈ ws → ws.Pairwise disjointWrites →
    readBytes (applyWrites ws f) a bs.length = bs := by
  intro ws
  induction ws with
  | nil => intro f a bs hmem _; exact absurd hmem (List.not_mem_nil _)
  | cons w rest ih =>
      intro f a bs hmem hpw
      have hrest : applyWrites (w :: rest) f = applyWrites rest (writeBytes f w.1 w.2) := rfl
      rcases List.mem_cons.1 hmem with heq | hmem2
      · subst heq
        rw [hrest]
        have hout : ∀ x, a ≤ x → x < a + bs.length →
            applyWrites rest (writeBytes f a bs) x = writeBytes f a bs x := by
          intro x hx1 hx2
          refine applyWrites_outside rest _ x ?_
          intro v hv
          have hd := (List.pairwise_cons.1 hpw).1 v hv
          rcases hd with h | h
          · left; simp only at h; omega
          · right; simp only at h; omega
        rw [readBytes_congr _ _ _ _ hout]
        exact readBytes_writeBytes_self bs f a
      · exact ih _ _ _ hmem2 (List.pairwise_cons.1 hpw).2

/-- Claim C5: after the rewriting loop of `expand_effect_mods` runs over any
image, each of the nine reference addresses in `addr_offset_dict` holds the
3-byte little-endian encoding of `to_rom_ptr new_eff_start + offset` with the
dictionary's offset (0, 1 or 2), and the loop writes no byte outside those
nine 3-byte ranges. -/
theorem effect_ptr_rewrites (new_eff_start : Nat) (f : Nat → Nat) (x : Nat)
    (hx : ∀ w ∈ effect_ptr_writes new_eff_start, x < w.1 ∨ w.1 + w.2.length ≤ x) :
    effect_ptr_writes new_eff_start =
      [ (0x01EB2E, le24 (to_rom_ptr new_eff_start + 1)),
        (0x01EB36, le24 (to_rom_ptr new_eff_start + 2)),
        (0x01EB3E, le24 (to_rom_ptr new_eff_start + 0)),
        (0x3DB5B2, le24 (to_rom_ptr new_eff_start + 1)),
        (0x3DB5D1, le24 (to_rom_ptr new_eff_start + 1)),
        (0x3DB5F0, le24 (to_rom_ptr new_eff_start + 1)),
        (0x3DB610, le24 (to_rom_ptr new_eff_start + 1)),
        (0x3DB62F, le24 (to_rom_ptr new_eff_start + 1)),
        (0x3DB64E, le24 (to_rom_ptr new_eff_start + 1)) ]
    ∧ (∀ p ∈ addr_offset_dict,
        readBytes (applyWrites (effect_ptr_writes new_eff_start) f) p.1 3 =
          le24 (to_rom_ptr new_eff_start + p.2))
    ∧ applyWrites (effect_ptr_writes new_eff_start) f x = f x := by
  have hpw : (effect_ptr_writes new_eff_start).Pairwise disjointWrites := by
    rw [show effect_ptr_writes new_eff_start =
      [ (0x01EB2E, le24 (to_rom_ptr new_eff_start + 1)),
        (0x01EB36, le24 (to_rom_ptr new_eff_start + 2)),
        (0x01EB3E, le24 (to_rom_ptr new_eff_start + 0)),
        (0x3DB5B2, le24 (to_rom_ptr new_eff_start + 1)),
        (0x3DB5D1, le24 (to_rom_ptr new_eff_start + 1)),
        (0x3DB5F0, le24 (to_rom_ptr new_eff_start + 1)),
        (0x3DB610, le24 (to_rom_ptr new_eff_start + 1)),
        (0x3DB62F, le24 (to_rom_ptr new_eff_start + 1)),
        (0x3DB64E, le24 (to_rom_ptr new_eff_start + 1)) ] from rfl]
    simp [List.pairwise_cons, disjointWrites, le24]
  refine ⟨rfl, ?_, applyWrites_outside _ _ _ hx⟩
  intro p hp
  have hmem : (p.1, le24 (to_rom_ptr new_eff_start + p.2)) ∈
      effect_ptr_writes new_eff_start :=
    List.mem_map.2 ⟨p, hp, rfl⟩
  have h3 : (3 : Nat) = (le24 (to_rom_ptr new_eff_start + p.2)).length := rfl
  rw [h3]
  exact readBytes_applyWrites _ f _ _ hmem hpw

/-- Witness for claim C5 at a concrete table address and image. -/
theorem effect_ptr_rewrites_witness :
    effect_ptr_writes 0x410000 =
      [ (0x01EB2E, le24 (to_rom_ptr 0x410000 + 1)),
        (0x01EB36, le24 (to_rom_ptr 0x410000 + 2)),
        (0x01EB3E, le24 (to_rom_ptr 0x410000 + 0)),
        (0x3DB5B2, le24 (to_rom_ptr 0x410000 + 1)),
        (0x3DB5D1, le24 (to_rom_ptr 0x410000 + 1)),
        (0x3DB5F0, le24 (to_rom_ptr 0x410000 + 1)),
        (0x3DB610, le24 (to_rom_ptr 0x410000 + 1)),
        (0x3DB62F, le24 (to_rom_ptr 0x410000 + 1)),
        (0x3DB64E, le24 (to_rom_ptr 0x410000 + 1)) ]
    ∧ (∀ p ∈ addr_offset_dict,
        readBytes (applyWrites (effect_ptr_writes 0x410000) (fun _ => 0)) p.1 3 =
          le24 (to_rom_ptr 0x410000 + p.2))
    ∧ applyWrites (effect_ptr_writes 0x410000) (fun _ => 0) 0 = (fun _ => (0 : Nat)) 0 :=
  effect_ptr_rewrites 0x410000 (fun _ => 0) 0 (by decide)

/-! ## `common/distribution.py` -/

/-- A weight/object pair's object is either a bare object or a list
(`ObjType = Union[T, Sequence[T]]`); a bare object is wrapped in a
one-element list. -/
def listify {T : Type} : T ⊕ List T → List T
  | Sum.inl t => [t]
  | Sum.inr l => l

/-- `Distribution._handle_weight_object_pairs` (distribution.py lines 54-77):
drop pairs with weight 0, wrap non-list objects in a one-element list, drop
pairs whose object list is empty. -/
def _handle_weight_object_pairs {T : Type}
    (weight_object_pairs : List (ℚ × (T ⊕ List T))) : List (ℚ × List T) :=
  weight_object_pairs.filterMap (fun pair =>
    if pair.1 = 0 then none
    else if (listify pair.2).isEmpty then none
    else some (pair.1, listify pair.2))

/-- The state of a constructed `Distribution`. -/
structure Distribution (T : Type) where
  weight_object_pairs : List (ℚ × List T)
  total_weight : ℚ

/-- `Distribution.__init__` / `set_weight_object_pairs` (lines 32-52 and
108-119): clean the pairs, compute the total weight, and raise
`ZeroWeightException` when the total weight is 0. -/
def mkDistribution {T : Type} (pairs : List (ℚ × (T ⊕ List T))) :
    Except String (Distribution T) :=
  let cleaned_pairs := _handle_weight_object_pairs pairs
  let total := (cleaned_pairs.map Prod.fst).sum
  if total = 0 then Except.error "ZeroWeightException"
  else Except.ok ⟨cleaned_pairs, total⟩

/-- A random source as used by `get_random_item`: the value returned by
`rng.random()` and the selection function `rng.choice`. -/
structure RNG (T : Type) where
  randomVal : ℚ
  choice : List T → T

/-- The loop of `get_random_item` (lines 95-102): accumulate weights and stop
at the first pair whose cumulative weight strictly exceeds the target; the
loop falling through raises `ValueError("No choice made.")`. -/
def get_random_item_go {T : Type} (rng : RNG T) (target : ℚ) :
    ℚ → List (ℚ × List T) → Except String T
  | _, [] => Except.error "No choice made."
  | cum_weight, (weight, obj) :: rest =>
      if target < cum_weight + weight then Except.ok (rng.choice obj)
      else get_random_item_go rng target (cum_weight + weight) rest

/-- `Distribution.get_random_item` (lines 85-102): `target` is
`rng.random() * total_weight`; Python `cum_weight > target` is
`target < cum_weight`. -/
def get_random_item {T : Type} (d : Distribution T) (rng : RNG T) :
    Except String T :=
  get_random_item_go rng (rng.randomVal * d.total_weight) 0 d.weight_object_pairs

/-- The value list of the first stored pair whose cumulative weight strictly
exceeds the target, stated independently of the loop's error plumbing. -/
def first_exceeding {T : Type} (target : ℚ) :
    ℚ → List (ℚ × List T) → Option (List T)
  | _, [] => none
  | cum_weight, (weight, obj) :: rest =>
      if target < cum_weight + weight then some obj
      else first_exceeding target (cum_weight + weight) rest

theorem get_random_item_go_spec {T : Type} (rng : RNG T) (target : ℚ) :
    ∀ (l : List (ℚ × List T)) (cum : ℚ),
    cum ≤ target → target < cum + (l.map Prod.fst).sum →
    ∃ obj, first_exceeding target cum l = some obj ∧
      get_random_item_go rng target cum l = Except.ok (rng.choice obj) := by
  intro l
  induction l with
  | nil =>
      intro cum hc h
      simp only [List.map_nil, List.sum_nil, add_zero] at h
      exact absurd (lt_of_le_of_lt hc h) (lt_irrefl _)
  | cons p rest ih =>
      intro cum hc h
      obtain ⟨w, obj⟩ := p
      by_cases hlt : target < cum + w
      · exact ⟨obj, by rw [first_exceeding, if_pos hlt],
          by rw [get_random_item_go, if_pos hlt]⟩
      · have hc2 : cum + w ≤ target := le_of_not_lt hlt
        have hrest : target < (cum + w) + (rest.map Prod.fst).sum := by
          simp only [List.map_cons, List.sum_cons] at h
          linarith
        obtain ⟨obj2, h1, h2⟩ := ih (cum + w) hc2 hrest
        exact ⟨obj2, by rw [first_exceeding, if_neg hlt]; exact h1,
          by rw [get_random_item_go, if_neg hlt]; exact h2⟩

theorem cleaned_pairs_facts {T : Type} (pairs : List (ℚ × (T ⊕ List T)))
    (hnn : ∀ p ∈ pairs, 0 ≤ p.1) :
    ∀ q ∈ _handle_weight_object_pairs pairs, 0 < q.1 ∧ q.2 ≠ [] := by
  intro q hq
  rw [_handle_weight_object_pairs] at hq
  obtain ⟨p, hp, hpe⟩ := List.mem_filterMap.1 hq
  by_cases h0 : p.1 = 0
  · rw [if_pos h0] at hpe
    exact Option.noConfusion hpe
  · rw [if_neg h0] at hpe
    by_cases hemp : (listify p.2).isEmpty
    · rw [if_pos hemp] at hpe
      exact Option.noConfusion hpe
    · rw [if_neg hemp] at hpe
      have h1 : q.1 = p.1 := by rw [← Option.some.inj hpe]
      have h2 : q.2 = listify p.2 := by rw [← Option.some.inj hpe]
      refine ⟨?_, ?_⟩
      · rw [h1]
        exact lt_of_le_of_ne (hnn p hp) (Ne.symm h0)
      · rw [h2]
        intro hnil
        exact hemp (by rw [hnil]; rfl)

/-- Claim C9: for a `Distribution` built from pairs with nonnegative weights,
construction raises `ZeroWeightException` exactly when the cleaned pairs
(zero-weight pairs and pairs with an empty listified object dropped) have
total weight 0; every stored value list is non-empty; and for every rng whose
`random()` returns `r` with `0 ≤ r < 1`, `get_random_item` returns the element
chosen by `rng.choice` from the value list of the first stored pair whose
cumulative weight strictly exceeds `r * total_weight` — the terminal
`ValueError("No choice made.")` branch is unreachable. -/
theorem distribution_get_random_item_total {T : Type}
    (pairs : List (ℚ × (T ⊕ List T))) (hnn : ∀ p ∈ pairs, 0 ≤ p.1)
    (rng : RNG T) (hr0 : 0 ≤ rng.randomVal) (hr1 : rng.randomVal < 1) :
    (mkDistribution pairs = Except.error "ZeroWeightException" ↔
      ((_handle_weight_object_pairs pairs).map Prod.fst).sum = 0)
    ∧ ∀ d : Distribution T, mkDistribution pairs = Except.ok d →
        (∀ q ∈ d.weight_object_pairs, q.2 ≠ [])
        ∧ ∃ obj, first_exceeding (rng.randomVal * d.total_weight) 0
              d.weight_object_pairs = some obj
            ∧ get_random_item d rng = Except.ok (rng.choice obj)
            ∧ get_random_item d rng ≠ Except.error "No choice made." := by
  constructor
  · unfold mkDistribution
    by_cases h : ((_handle_weight_object_pairs pairs).map Prod.fst).sum = 0
    · simp [h]
    · simp [h]
  · intro d hd
    unfold mkDistribution at hd
    by_cases h : ((_handle_weight_object_pairs pairs).map Prod.fst).sum = 0
    · simp [h] at hd
    · simp only [h, if_false, Except.ok.injEq] at hd
      have hpairs : d.weight_object_pairs = _handle_weight_object_pairs pairs := by
        rw [← hd]
      have htotal : d.total_weight = ((_handle_weight_object_pairs pairs).map Prod.fst).sum := by
        rw [← hd]
      have hfacts := cleaned_pairs_facts pairs hnn
      refine ⟨fun q hq => (hfacts q (hpairs ▸ hq)).2, ?_⟩
      have hge : 0 ≤ ((_handle_weight_object_pairs pairs).map Prod.fst).sum := by
        refine List.sum_nonneg ?_
        intro a ha
        obtain ⟨q, hq, hqa⟩ := List.mem_map.1 ha
        exact hqa ▸ le_of_lt (hfacts q hq).1
      have hpos : 0 < d.total_weight := by
        rw [htotal]
        rcases lt_or_eq_of_le hge with hlt | heq
        · exact hlt
        · exact absurd heq.symm h
      have htarget : rng.randomVal * d.total_weight <
          0 + (d.weight_object_pairs.map Prod.fst).sum := by
        rw [hpairs, zero_add, ← htotal]
        calc rng.randomVal * d.total_weight < 1 * d.total_weight :=
              mul_lt_mul_of_pos_right hr1 hpos
          _ = d.total_weight := one_mul _
      have hcum : (0 : ℚ) ≤ rng.randomVal * d.total_weight :=
        mul_nonneg hr0 (le_of_lt hpos)
      obtain ⟨obj, h1, h2⟩ := get_random_item_go_spec rng
        (rng.randomVal * d.total_weight) d.weight_object_pairs 0 hcum htarget
      refine ⟨obj, h1, h2, ?_⟩
      intro hcontra
      have hoe : (Except.ok (rng.choice obj) : Except String T) =
          Except.error "No choice made." := h2.symm.trans hcontra
      exact Except.noConfusion hoe

/-- Concrete rng for the claim C9 witness. -/
def c9_rng : RNG Nat := ⟨1 / 2, fun l => l.headI⟩

/-- Concrete weight/object pairs for the claim C9 witness: a positive-weight
pair, a zero-weight pair (dropped) and a positive-weight pair with an empty
object list (dropped). -/
def c9_pairs : List (ℚ × (Nat ⊕ List Nat)) :=
  [(1, Sum.inr [5]), (0, Sum.inr [9]), (2, Sum.inr []), (3, Sum.inl 4)]

/-- Witness for claim C9 at a concrete distribution and rng. -/
theorem distribution_get_random_item_total_witness :
    (mkDistribution c9_pairs = Except.error "ZeroWeightException" ↔
      ((_handle_weight_object_pairs c9_pairs).map Prod.fst).sum = 0)
    ∧ ∀ d : Distribution Nat, mkDistribution c9_pairs = Except.ok d →
        (∀ q ∈ d.weight_object_pairs, q.2 ≠ [])
        ∧ ∃ obj, first_exceeding (c9_rng.randomVal * d.total_weight) 0
              d.weight_object_pairs = some obj
            ∧ get_random_item d c9_rng = Except.ok (c9_rng.choice obj)
            ∧ get_random_item d c9_rng ≠ Except.error "No choice made." :=
  distribution_get_random_item_total c9_pairs
    (by intro p hp; fin_cases hp <;> norm_num)
    c9_rng (by norm_num [c9_rng]) (by norm_num [c9_rng])

/-! ## `arguments/techoptions.py` -/

/-- `TechOrder` (techoptions.py lines 9-13). -/
inductive TechOrder
  | VANILLA | RANDOM | MP_ORDER | MP_TYPE_ORDER
deriving DecidableEq, Repr

/-- `TechDamage` (techoptions.py lines 16-19). -/
inductive TechDamage
  | VANILLA | SHUFFLE | RANDOM
deriving DecidableEq, Repr

/-- The attributes stored on a constructed `TechOptions`; float fields are
modelled over the rationals. -/
structure TechOptions where
  tech_order : TechOrder
  tech_damage : TechDamage
  tech_damage_random_factor_min : ℚ
  tech_damage_random_factor_max : ℚ
  preserve_magic : Bool
  black_hole_min : ℚ
  black_hole_factor : ℚ
deriving DecidableEq, Repr

/-- `TechOptions.__init__` (techoptions.py lines 32-56): both random-factor
arguments are clamped below at 0 (`max(0.0, x)`) and then stored in sorted
order (`sorted` of a two-element list puts the smaller first); the remaining
arguments are stored unchanged. -/
def TechOptions.init (tech_order : TechOrder) (tech_damage : TechDamage)
    (tech_damage_random_factor_min tech_damage_random_factor_max : ℚ)
    (preserve_magic : Bool) (black_hole_min black_hole_factor : ℚ) :
    TechOptions :=
  let clamped_min := max 0 tech_damage_random_factor_min
  let clamped_max := max 0 tech_damage_random_factor_max
  { tech_order := tech_order
    tech_damage := tech_damage
    tech_damage_random_factor_min := min clamped_min clamped_max
    tech_damage_random_factor_max := max clamped_min clamped_max
    preserve_magic := preserve_magic
    black_hole_min := black_hole_min
    black_hole_factor := black_hole_factor }

/-- Claim C10: for all arguments, the constructed `TechOptions` satisfies
`0 ≤ tech_damage_random_factor_min ≤ tech_damage_random_factor_max` (each
negative input is clamped to 0 and the two values are put in sorted order),
while `tech_order`, `tech_damage`, `preserve_magic`, `black_hole_min` and
`black_hole_factor` are stored unchanged. -/
theorem tech_options_init_invariant (tech_order : TechOrder)
    (tech_damage : TechDamage) (fmin fmax : ℚ) (preserve_magic : Bool)
    (black_hole_min black_hole_factor : ℚ) :
    (TechOptions.init tech_order tech_damage fmin fmax preserve_magic
        black_hole_min black_hole_factor).tech_damage_random_factor_min =
      min (max 0 fmin) (max 0 fmax)
    ∧ (TechOptions.init tech_order tech_damage fmin fmax preserve_magic
        black_hole_min black_hole_factor).tech_damage_random_factor_max =
      max (max 0 fmin) (max 0 fmax)
    ∧ 0 ≤ (TechOptions.init tech_order tech_damage fmin fmax preserve_magic
        black_hole_min black_hole_factor).tech_damage_random_factor_min
    ∧ (TechOptions.init tech_order tech_damage fmin fmax preserve_magic
        black_hole_min black_hole_factor).tech_damage_random_factor_min ≤
      (TechOptions.init tech_order tech_damage fmin fmax preserve_magic
        black_hole_min black_hole_factor).tech_damage_random_factor_max
    ∧ (TechOptions.init tech_order tech_damage fmin fmax preserve_magic
        black_hole_min black_hole_factor).tech_order = tech_order
    ∧ (TechOptions.init tech_order tech_damage fmin fmax preserve_magic
        black_hole_min black_hole_factor).tech_damage = tech_damage
    ∧ (TechOptions.init tech_order tech_damage fmin fmax preserve_magic
        black_hole_min black_hole_factor).preserve_magic = preserve_magic
    ∧ (TechOptions.init tech_order tech_damage fmin fmax preserve_magic
        black_hole_min black_hole_factor).black_hole_min = black_hole_min
    ∧ (TechOptions.init tech_order tech_damage fmin fmax preserve_magic
        black_hole_min black_hole_factor).black_hole_factor = black_hole_factor := by
  refine ⟨rfl, rfl, ?_, ?_, rfl, rfl, rfl, rfl, rfl⟩
  · exact le_min (le_max_left 0 fmin) (le_max_left 0 fmax)
  · exact min_le_of_left_le (le_max_left _ _)
